import Mathlib

/-!
Shallow embedding of the Searxng n8n node's execute pipeline
(src/nodes/Searxng/Searxng.node.ts): query resolution, parameter
building, result post-processing and the batch error policy.
-/

namespace Searxng

/-- A JavaScript runtime value, as far as the pipeline inspects it. -/
inductive JsValue where
  | null
  | undefined
  | bool (b : Bool)
  | num (n : Int)
  | str (s : String)
  | arr (xs : List JsValue)
  | obj (fields : List (String × JsValue))
deriving Repr

/-- JavaScript truthiness of a value. -/
def truthy : JsValue → Bool
  | .null => false
  | .undefined => false
  | .bool b => b
  | .num n => n != 0
  | .str s => s != ""
  | .arr _ => true
  | .obj _ => true

/-- The JavaScript `a || b` operator on values. -/
def jsOr (a b : JsValue) : JsValue :=
  if truthy a then a else b

/-- Whether `typeof v` is the string type. -/
def jsIsString : JsValue → Bool
  | .str _ => true
  | _ => false

/-- Association-list lookup for object fields. -/
def lookupField (k : String) : List (String × JsValue) → Option JsValue
  | [] => none
  | (k1, v) :: rest => if k1 = k then some v else lookupField k rest

/-- Property read on an object field list: absent fields read as undefined. -/
def getField0 (r : List (String × JsValue)) (k : String) : JsValue :=
  (lookupField k r).getD .undefined

/-- Property read on an arbitrary value. -/
def getField : JsValue → String → JsValue
  | .obj fs, k => getField0 fs k
  | _, _ => .undefined

/-- The JavaScript `delete obj[k]` on a field list. -/
def deleteField (r : List (String × JsValue)) (k : String) : List (String × JsValue) :=
  r.filter (fun p => p.1 != k)

/-- Spread-with-override: write field `k` to `v`, keeping its position if present. -/
def setField (r : List (String × JsValue)) (k : String) (v : JsValue) : List (String × JsValue) :=
  match r with
  | [] => [(k, v)]
  | (k1, v1) :: rest => if k1 = k then (k, v) :: rest else (k1, v1) :: setField rest k v

/-- View a value as an object field list. -/
def asObj : JsValue → List (String × JsValue)
  | .obj fs => fs
  | _ => []

/-- The additionalFields collection, as cast in execute (all fields optional). -/
structure AdditionalFields where
  language : Option String := none
  time_range : Option String := none
  safesearch : Option String := none
  filter : Option String := none
  format : Option String := none
  rawResponse : Option Bool := none
  singleResponse : Option Bool := none
deriving Repr

/-- Truthiness of an optional string field (undefined and empty are falsy). -/
def strTruthy : Option String → Bool
  | some s => s != ""
  | none => false

/-- Truthiness of an optional boolean field. -/
def boolTruthy : Option Bool → Bool
  | some b => b
  | none => false

/-- The JavaScript `field || dflt` idiom on an optional string field. -/
def jsOrStr (f : Option String) (dflt : String) : String :=
  match f with
  | some s => if s != "" then s else dflt
  | none => dflt

/-- A query-parameter value: Record of string or number in the source. -/
inductive QPVal where
  | s (v : String)
  | n (v : Int)
deriving Repr, DecidableEq

mutual

/-- String conversion used by Array.prototype.join on one element. -/
def joinElem : JsValue → String
  | .null => ""
  | .undefined => ""
  | .bool b => if b then "true" else "false"
  | .num n => toString n
  | .str s => s
  | .arr xs => joinElems xs
  | .obj _ => "[object Object]"

/-- Comma join of converted elements. -/
def joinElems : List JsValue → String
  | [] => ""
  | [x] => joinElem x
  | x :: rest => joinElem x ++ "," ++ joinElems rest

end

/-- Error message for calling join on a value that has no join method. -/
def joinErrorMsg : String := "TypeError: categories.join is not a function"

/-- The categories handling of execute: a bare string is wrapped into a
one-element array, a falsy value is replaced by the general default, and
the result is joined with commas; join on a non-array throws. -/
def buildCategories (categories : JsValue) : Except String String :=
  let c := match categories with
    | .str s => JsValue.arr [.str s]
    | v => v
  let c := if truthy c then c else JsValue.arr [.str "general"]
  match c with
  | .arr xs => .ok (joinElems xs)
  | _ => .error joinErrorMsg

/-- The JavaScript split on a comma, over the character list of a string. -/
def splitCommaChars : List Char → List String
  | [] => [""]
  | c :: rest =>
    match splitCommaChars rest with
    | [] => [""]
    | h :: t => if c = ',' then "" :: h :: t else (String.singleton c ++ h) :: t

/-- The JavaScript String.prototype.split with a one-character separator. -/
def splitComma (s : String) : List String := splitCommaChars s.data

/-- The JavaScript String.prototype.trim: drop leading and trailing
whitespace characters. -/
def jsTrim (s : String) : String :=
  String.mk ((s.data.dropWhile Char.isWhitespace).reverse.dropWhile
    Char.isWhitespace).reverse

/-- The default fields-filter string of execute. -/
def defaultFilters : String := "thumbnail, parsed_url , positions"

/-- The filter token list: additional-fields filter string or the default,
split on commas. -/
def computeFilters (af : AdditionalFields) : List String :=
  splitComma (jsOrStr af.filter defaultFilters)

/-- The outbound queryParameters record built by execute, in insertion
order: q, categories, format always; language, time_range, safesearch when
truthy; pageno when strictly positive. -/
def buildQueryParameters (query : String) (categories : JsValue)
    (af : AdditionalFields) (pageno : Int) : Except String (List (String × QPVal)) :=
  match buildCategories categories with
  | .error e => .error e
  | .ok cats => .ok
      ([("q", QPVal.s query), ("categories", QPVal.s cats),
        ("format", QPVal.s (jsOrStr af.format "json"))]
       ++ (if strTruthy af.language then [("language", QPVal.s (af.language.getD ""))] else [])
       ++ (if strTruthy af.time_range then [("time_range", QPVal.s (af.time_range.getD ""))] else [])
       ++ (if strTruthy af.safesearch then [("safesearch", QPVal.s (af.safesearch.getD ""))] else [])
       ++ (if pageno > 0 then [("pageno", QPVal.n pageno)] else []))

/-- Lookup in the outbound parameter record. -/
def qpLookup (k : String) : List (String × QPVal) → Option QPVal
  | [] => none
  | (k1, v) :: rest => if k1 = k then some v else qpLookup k rest

/-- Query resolution of execute: the item fields query, input, prompt in
order, each accepted only when it is a string, else the node parameter. -/
def resolveQuery (item : JsValue) (paramQuery : String) : String :=
  if truthy item then
    match getField item "query" with
    | .str s => s
    | _ =>
      match getField item "input" with
      | .str s => s
      | _ =>
        match getField item "prompt" with
        | .str s => s
        | _ => paramQuery
  else paramQuery

/-- Per-result processing of execute: capture snippet before filtering,
delete each trimmed nonempty filter field, then write the snippet back. -/
def processResult (filters : List String) (result : List (String × JsValue)) :
    List (String × JsValue) :=
  let snippet := jsOr (getField0 result "snippet") (getField0 result "content")
  let filtered := filters.foldl (fun r f =>
    let fieldName := jsTrim f
    if fieldName = "" then r else deleteField r fieldName) result
  setField filtered "snippet" snippet

/-- The processed results list: the upstream results field when it is an
array, mapped through processResult; otherwise the empty list. -/
def processRawResults (filters : List String) (response : JsValue) :
    List (List (String × JsValue)) :=
  match getField response "results" with
  | .arr rs => rs.map (fun r => processResult filters (asObj r))
  | _ => []

/-- The single-response versus limiting step of execute; returns the answer
value and the final results list. -/
def applySingleOrLimit (single : Bool) (limit : Int)
    (results : List (List (String × JsValue))) :
    JsValue × List (List (String × JsValue)) :=
  match single, results with
  | true, r :: _ => (jsOr (getField0 r "content") (getField0 r "snippet"), [r])
  | _, _ =>
    if 0 < limit ∧ limit < (results.length : Int) then
      (JsValue.undefined, results.take limit.toNat)
    else
      (JsValue.undefined, results)

/-- The metadata record of a success envelope. -/
structure Metadata where
  total : Nat
  totalReturned : Nat
  filtered : Bool
  queryParameters : List (String × QPVal)
  additionalFields : AdditionalFields
deriving Repr

/-- An output envelope: a success envelope carries metadata, query, answer,
results and the optional raw response; a failure envelope carries exactly
the error message and the query. -/
inductive Envelope where
  | success (md : Metadata) (query : String) (answer : JsValue)
      (results : List (List (String × JsValue))) (rawResponse : Option JsValue)
  | failure (error : String) (query : String)
deriving Repr

/-- The results list stored in an envelope. -/
def Envelope.resultsList : Envelope → List (List (String × JsValue))
  | .success _ _ _ rs _ => rs
  | .failure _ _ => []

/-- The answer value stored in an envelope. -/
def Envelope.answerVal : Envelope → JsValue
  | .success _ _ a _ _ => a
  | .failure _ _ => .undefined

/-- The metadata stored in an envelope. -/
def Envelope.metadataOf : Envelope → Metadata
  | .success md _ _ _ _ => md
  | .failure _ _ =>
      { total := 0, totalReturned := 0, filtered := false,
        queryParameters := [], additionalFields := {} }

/-- The success-path envelope construction of execute for one item, given
the parsed upstream response. -/
def processItem (query : String) (qp : List (String × QPVal))
    (af : AdditionalFields) (filters : List String) (limit : Int)
    (response : JsValue) : Envelope :=
  let results := processRawResults filters response
  let ar := applySingleOrLimit (boolTruthy af.singleResponse) limit results
  Envelope.success
    { total := results.length, totalReturned := ar.2.length,
      filtered := ar.2.length != results.length,
      queryParameters := qp, additionalFields := af }
    query ar.1 ar.2
    (if boolTruthy af.rawResponse then some response else none)

/-- The per-item node configuration read through getNodeParameter. -/
structure ItemConfig where
  itemJson : JsValue
  queryParam : String
  categoriesParam : JsValue
  additionalFields : AdditionalFields
  limit : Int
  pageno : Int

/-- One batch item: its configuration and the transport outcome for it. -/
abbrev Item := ItemConfig × Except String JsValue

/-- One loop iteration of execute: parameter building errors escape to the
outer handler; a transport error is converted into a failure envelope when
continueOnFail holds and is rethrown otherwise. -/
def runItemStep (cfg : ItemConfig) (transport : Except String JsValue)
    (continueOnFail : Bool) : Except String Envelope :=
  let query := resolveQuery cfg.itemJson cfg.queryParam
  let filters := computeFilters cfg.additionalFields
  match buildQueryParameters query cfg.categoriesParam cfg.additionalFields cfg.pageno with
  | .error e => .error e
  | .ok qp =>
    match transport with
    | .ok response => .ok (processItem query qp cfg.additionalFields filters cfg.limit response)
    | .error msg => if continueOnFail then .ok (.failure msg query) else .error msg

/-- The item loop of execute: appends envelopes in input order and stops at
the first escaping error, returning the output built so far with it. -/
def runBatch (continueOnFail : Bool) :
    List Item → List Envelope → List Envelope × Option String
  | [], acc => (acc, none)
  | (cfg, transport) :: rest, acc =>
    match runItemStep cfg transport continueOnFail with
    | .ok env => runBatch continueOnFail rest (acc ++ [env])
    | .error e => (acc, some e)

/-- Resolved credentials. -/
structure Credentials where
  apiUrl : String
  apiKey : String

/-- The whole execute call: credential resolution, the item loop, and the
outer catch that returns the partial output when continueOnFail holds. -/
def executeNode (creds : Except String (Option Credentials)) (items : List Item)
    (continueOnFail : Bool) : Except String (List Envelope) :=
  match creds with
  | .error e => if continueOnFail then .ok [] else .error e
  | .ok none => if continueOnFail then .ok [] else .error "No credentials got returned!"
  | .ok (some _) =>
    match runBatch continueOnFail items [] with
    | (out, none) => .ok out
    | (out, some e) => if continueOnFail then .ok out else .error e

/-! Helper lemmas. -/

theorem lookupField_setField (r : List (String × JsValue)) (k : String) (v : JsValue) :
    lookupField k (setField r k v) = some v := by
  induction r with
  | nil => simp [setField, lookupField]
  | cons p rest ih =>
    obtain ⟨k1, v1⟩ := p
    by_cases h : k1 = k
    · simp [setField, h, lookupField]
    · simp [setField, h, lookupField, ih]

theorem qpLookup_append_some (k : String) (v : QPVal) :
    ∀ (l1 l2 : List (String × QPVal)),
      qpLookup k l1 = some v → qpLookup k (l1 ++ l2) = some v := by
  intro l1
  induction l1 with
  | nil => intro l2 h; exact absurd h (by simp [qpLookup])
  | cons p rest ih =>
    intro l2 h
    obtain ⟨k1, w⟩ := p
    by_cases hk : k1 = k
    · simp [qpLookup, hk] at h ⊢; exact h
    · simp [qpLookup, hk] at h ⊢; exact ih l2 h

theorem intercalate_go_eq (s : String) :
    ∀ (as : List String) (acc : String),
      String.intercalate.go acc s as = acc ++ as.foldr (fun a r => s ++ a ++ r) ""
  | [], acc => by simp [String.intercalate.go]
  | a :: t, acc => by
    rw [String.intercalate.go, intercalate_go_eq s t]
    simp [String.append_assoc]

theorem intercalate_eq (s x : String) (t : List String) :
    String.intercalate s (x :: t) = x ++ t.foldr (fun a r => s ++ a ++ r) "" := by
  rw [String.intercalate, intercalate_go_eq]

theorem joinElems_cons_cons (a b : JsValue) (t : List JsValue) :
    joinElems (a :: b :: t) = joinElem a ++ "," ++ joinElems (b :: t) := rfl

theorem joinElems_map_str_cons :
    ∀ (xs : List String) (x : String),
      joinElems ((x :: xs).map JsValue.str) =
        x ++ xs.foldr (fun a r => "," ++ a ++ r) ""
  | [], x => by simp [joinElems, joinElem]
  | y :: t, x => by
    have ih := joinElems_map_str_cons t y
    simp only [List.map_cons] at ih ⊢
    rw [joinElems_cons_cons, ih]
    simp [joinElem, String.append_assoc]

theorem joinElems_map_str (x : String) (xs : List String) :
    joinElems ((x :: xs).map JsValue.str) = String.intercalate "," (x :: xs) := by
  rw [joinElems_map_str_cons, intercalate_eq]

theorem buildCategories_arr (l : List JsValue) :
    buildCategories (JsValue.arr l) = Except.ok (joinElems l) := rfl

theorem buildQueryParameters_eq (q : String) (cats : JsValue) (af : AdditionalFields)
    (pg : Int) (c : String) (h : buildCategories cats = Except.ok c) :
    buildQueryParameters q cats af pg = Except.ok
      ([("q", QPVal.s q), ("categories", QPVal.s c),
        ("format", QPVal.s (jsOrStr af.format "json"))]
       ++ (if strTruthy af.language then [("language", QPVal.s (af.language.getD ""))] else [])
       ++ (if strTruthy af.time_range then [("time_range", QPVal.s (af.time_range.getD ""))] else [])
       ++ (if strTruthy af.safesearch then [("safesearch", QPVal.s (af.safesearch.getD ""))] else [])
       ++ (if pg > 0 then [("pageno", QPVal.n pg)] else [])) := by
  simp [buildQueryParameters, h]

theorem buildQueryParameters_categories (q : String) (cats : JsValue)
    (af : AdditionalFields) (pg : Int) (c : String)
    (h : buildCategories cats = Except.ok c) :
    ∃ ps, buildQueryParameters q cats af pg = Except.ok ps ∧
      qpLookup "categories" ps = some (QPVal.s c) := by
  refine ⟨_, buildQueryParameters_eq q cats af pg c h, ?_⟩
  simp [qpLookup]

/-! Claim theorems. -/

/-- C1 counterexample: an empty categories list is truthy in JavaScript, so it
is not replaced by the general default but joined into the empty string; the
outbound parameter is categories set to the empty string, not to general. -/
theorem C1_counterexample :
    buildQueryParameters "q" (JsValue.arr []) {} 0 =
      Except.ok [("q", QPVal.s "q"), ("categories", QPVal.s ""),
        ("format", QPVal.s "json")] ∧
    buildCategories (JsValue.arr []) ≠ Except.ok "general" := by
  refine ⟨rfl, fun h => ?_⟩
  rw [buildCategories_arr] at h
  injection h with h
  exact absurd h (by decide)

/-- C1 (amended): in parameter building, a bare string categories value s
yields the outbound parameter categories equal to s; a non-empty list of
strings yields the list joined with commas; null and undefined yield general;
an empty list yields the empty string rather than general. -/
theorem C1_categories (q s x : String) (xs : List String)
    (af : AdditionalFields) (pg : Int) :
    (∃ ps, buildQueryParameters q (JsValue.str s) af pg = Except.ok ps ∧
      qpLookup "categories" ps = some (QPVal.s s)) ∧
    (∃ ps, buildQueryParameters q (JsValue.arr ((x :: xs).map JsValue.str)) af pg
        = Except.ok ps ∧
      qpLookup "categories" ps = some (QPVal.s (String.intercalate "," (x :: xs)))) ∧
    (∃ ps, buildQueryParameters q JsValue.null af pg = Except.ok ps ∧
      qpLookup "categories" ps = some (QPVal.s "general")) ∧
    (∃ ps, buildQueryParameters q JsValue.undefined af pg = Except.ok ps ∧
      qpLookup "categories" ps = some (QPVal.s "general")) ∧
    (∃ ps, buildQueryParameters q (JsValue.arr []) af pg = Except.ok ps ∧
      qpLookup "categories" ps = some (QPVal.s "")) := by
  refine ⟨buildQueryParameters_categories _ _ _ _ _ rfl,
    buildQueryParameters_categories _ _ _ _ _ ?_,
    buildQueryParameters_categories _ _ _ _ _ rfl,
    buildQueryParameters_categories _ _ _ _ _ rfl,
    buildQueryParameters_categories _ _ _ _ _ rfl⟩
  rw [buildCategories_arr, joinElems_map_str]

/-- C7 counterexample: a categories value that is a nonzero number is truthy
but has no join method, so parameter building raises a TypeError instead of
producing the parameter categories general without error. -/
theorem C7_counterexample :
    buildCategories (JsValue.num 5) = Except.error joinErrorMsg ∧
    buildQueryParameters "q" (JsValue.num 5) {} 0 = Except.error joinErrorMsg :=
  ⟨rfl, rfl⟩

/-- C7 (amended): a malformed categories value that is neither string, list,
null, nor undefined is treated like null only when it is falsy (the number 0
and false default to general); a truthy malformed value (a nonzero number,
true, or an object) makes parameter building raise a TypeError. -/
theorem C7_malformed (n : Int) (fs : List (String × JsValue)) (hn : n ≠ 0) :
    buildCategories (JsValue.bool false) = Except.ok "general" ∧
    buildCategories (JsValue.num 0) = Except.ok "general" ∧
    buildCategories (JsValue.num n) = Except.error joinErrorMsg ∧
    buildCategories (JsValue.bool true) = Except.error joinErrorMsg ∧
    buildCategories (JsValue.obj fs) = Except.error joinErrorMsg := by
  refine ⟨rfl, rfl, ?_, rfl, rfl⟩
  have ht : truthy (JsValue.num n) = true := by simp [truthy, hn]
  simp [buildCategories, ht]

/-- C7 witness: the amended behavior evaluated at the number 5, true, and the
empty object. -/
theorem C7_malformed_witness :
    buildCategories (JsValue.bool false) = Except.ok "general" ∧
    buildCategories (JsValue.num 0) = Except.ok "general" ∧
    buildCategories (JsValue.num 5) = Except.error joinErrorMsg ∧
    buildCategories (JsValue.bool true) = Except.error joinErrorMsg ∧
    buildCategories (JsValue.obj []) = Except.error joinErrorMsg :=
  C7_malformed 5 [] (by decide)

/-- C9: a successfully built outbound parameter set contains a pageno key if
and only if pageno is strictly greater than 0. -/
theorem C9_pageno (q : String) (cats : JsValue) (af : AdditionalFields) (pg : Int)
    (ps : List (String × QPVal))
    (h : buildQueryParameters q cats af pg = Except.ok ps) :
    (qpLookup "pageno" ps).isSome = true ↔ pg > 0 := by
  cases hc : buildCategories cats with
  | error e => simp [buildQueryParameters, hc] at h
  | ok c =>
    rw [buildQueryParameters_eq q cats af pg c hc] at h
    injection h with h
    subst h
    by_cases h1 : strTruthy af.language = true <;>
      by_cases h2 : strTruthy af.time_range = true <;>
        by_cases h3 : strTruthy af.safesearch = true <;>
          by_cases h4 : pg > 0 <;>
            simp [h1, h2, h3, h4, qpLookup]

/-- C9 witness: with pageno 2 the built parameter set carries the pageno key. -/
theorem C9_pageno_witness :
    (qpLookup "pageno" [("q", QPVal.s "q"), ("categories", QPVal.s "general"),
      ("format", QPVal.s "json"), ("pageno", QPVal.n 2)]).isSome = true ↔
      (2 : Int) > 0 :=
  C9_pageno "q" JsValue.null {} 2 _ rfl

/-- C10: an additional-fields filter value that is the empty string is falsy,
so the default filter list thumbnail, parsed_url, positions is applied to the
results exactly as if no filter had been provided; an empty filter string
cannot disable filtering. -/
theorem C10_empty_filter (af : AdditionalFields) (r : List (String × JsValue))
    (h : af.filter = some "") :
    computeFilters af = computeFilters { af with filter := none } ∧
    computeFilters af = ["thumbnail", " parsed_url ", " positions"] ∧
    (computeFilters af).map jsTrim = ["thumbnail", "parsed_url", "positions"] ∧
    processResult (computeFilters af) r =
      processResult (computeFilters { af with filter := none }) r := by
  have h1 : computeFilters af = ["thumbnail", " parsed_url ", " positions"] := by
    unfold computeFilters
    rw [h]
    decide
  have h2 : computeFilters { af with filter := none } =
      ["thumbnail", " parsed_url ", " positions"] := by
    show splitComma (jsOrStr none defaultFilters) = _
    decide
  refine ⟨h1.trans h2.symm, h1, ?_, by rw [h1.trans h2.symm]⟩
  rw [h1]
  decide

/-- C10 witness: the empty filter string evaluated on a one-field result. -/
theorem C10_empty_filter_witness :
    computeFilters { filter := some "" } =
      computeFilters { ({ filter := some "" } : AdditionalFields) with filter := none } ∧
    computeFilters { filter := some "" } = ["thumbnail", " parsed_url ", " positions"] ∧
    (computeFilters { filter := some "" }).map jsTrim =
      ["thumbnail", "parsed_url", "positions"] ∧
    processResult (computeFilters { filter := some "" }) [("content", JsValue.str "C")] =
      processResult
        (computeFilters { ({ filter := some "" } : AdditionalFields) with filter := none })
        [("content", JsValue.str "C")] :=
  C10_empty_filter { filter := some "" } [("content", JsValue.str "C")] rfl

/-- C2: every processed result carries a snippet key whose value is the raw
item's snippet field falling back to its content field, both read before any
field filtering; the key is written for every filter list, even when the
filters remove snippet or content and even when both source fields are
absent. -/
theorem C2_snippet (filters : List String) (r : List (String × JsValue)) :
    lookupField "snippet" (processResult filters r) =
      some (jsOr (getField0 r "snippet") (getField0 r "content")) := by
  simp only [processResult]
  exact lookupField_setField _ _ _

/-- C4: in every success envelope, metadata total counts the processed
results before any single-response or limit truncation, totalReturned is the
final results length, and filtered holds exactly when totalReturned differs
from total. -/
theorem C4_metadata (query : String) (qp : List (String × QPVal))
    (af : AdditionalFields) (filters : List String) (limit : Int)
    (response : JsValue) :
    (processItem query qp af filters limit response).metadataOf.total
        = (processRawResults filters response).length ∧
    (processItem query qp af filters limit response).metadataOf.totalReturned
        = (processItem query qp af filters limit response).resultsList.length ∧
    ((processItem query qp af filters limit response).metadataOf.filtered = true ↔
      (processItem query qp af filters limit response).metadataOf.totalReturned ≠
        (processItem query qp af filters limit response).metadataOf.total) := by
  refine ⟨rfl, rfl, ?_⟩
  simp [processItem, Envelope.metadataOf, bne_iff_ne]

/-- C3: with at least one processed result, singleResponse true sets the
answer to the first result's content falling back to its snippet and
truncates results to exactly that item, bypassing the limit for every limit
value; singleResponse false sets no answer. -/
theorem C3_single (query : String) (qp : List (String × QPVal))
    (af : AdditionalFields) (filters : List String) (limit : Int)
    (response : JsValue) (r : List (String × JsValue))
    (rest : List (List (String × JsValue)))
    (h : processRawResults filters response = r :: rest) :
    (boolTruthy af.singleResponse = true →
      (processItem query qp af filters limit response).resultsList = [r] ∧
      (processItem query qp af filters limit response).answerVal =
        jsOr (getField0 r "content") (getField0 r "snippet")) ∧
    (boolTruthy af.singleResponse = false →
      (processItem query qp af filters limit response).answerVal =
        JsValue.undefined) := by
  constructor
  · intro hs
    constructor <;>
      simp [processItem, h, hs, applySingleOrLimit, Envelope.resultsList,
        Envelope.answerVal]
  · intro hs
    simp only [processItem, h, hs, applySingleOrLimit, Envelope.answerVal]
    split <;> rfl

/-- C3 witness: singleResponse true on a two-result response keeps exactly
the first processed result and takes its content as the answer. -/
theorem C3_single_witness :
    (processItem "q" [] { singleResponse := some true } [] 10
      (JsValue.obj [("results", JsValue.arr
        [JsValue.obj [("title", JsValue.str "A"), ("content", JsValue.str "c1")],
         JsValue.obj [("title", JsValue.str "B"),
          ("content", JsValue.str "c2")]])])).resultsList =
      [[("title", JsValue.str "A"), ("content", JsValue.str "c1"),
        ("snippet", JsValue.str "c1")]] ∧
    (processItem "q" [] { singleResponse := some true } [] 10
      (JsValue.obj [("results", JsValue.arr
        [JsValue.obj [("title", JsValue.str "A"), ("content", JsValue.str "c1")],
         JsValue.obj [("title", JsValue.str "B"),
          ("content", JsValue.str "c2")]])])).answerVal =
      jsOr
        (getField0 [("title", JsValue.str "A"), ("content", JsValue.str "c1"),
          ("snippet", JsValue.str "c1")] "content")
        (getField0 [("title", JsValue.str "A"), ("content", JsValue.str "c1"),
          ("snippet", JsValue.str "c1")] "snippet") :=
  (C3_single "q" [] { singleResponse := some true } [] 10
    (JsValue.obj [("results", JsValue.arr
      [JsValue.obj [("title", JsValue.str "A"), ("content", JsValue.str "c1")],
       JsValue.obj [("title", JsValue.str "B"), ("content", JsValue.str "c2")]])])
    [("title", JsValue.str "A"), ("content", JsValue.str "c1"),
      ("snippet", JsValue.str "c1")]
    [[("title", JsValue.str "B"), ("content", JsValue.str "c2"),
      ("snippet", JsValue.str "c2")]]
    rfl).1 rfl

/-- The query resolution unfolded to its priority chain on property reads. -/
theorem resolveQuery_eq (item : JsValue) (param : String) :
    resolveQuery item param =
      match getField item "query" with
      | .str s => s
      | _ =>
        match getField item "input" with
        | .str s => s
        | _ =>
          match getField item "prompt" with
          | .str s => s
          | _ => param := by
  cases item <;> simp [resolveQuery, getField, truthy]

/-- C6: the effective query string is the item's query field when it is a
string, else its input field when a string, else its prompt field when a
string, else the configured query parameter; no error is raised when none of
the item fields match. -/
theorem C6_query (item : JsValue) (param s : String) :
    (getField item "query" = JsValue.str s → resolveQuery item param = s) ∧
    (jsIsString (getField item "query") = false →
      getField item "input" = JsValue.str s → resolveQuery item param = s) ∧
    (jsIsString (getField item "query") = false →
      jsIsString (getField item "input") = false →
      getField item "prompt" = JsValue.str s → resolveQuery item param = s) ∧
    (jsIsString (getField item "query") = false →
      jsIsString (getField item "input") = false →
      jsIsString (getField item "prompt") = false →
      resolveQuery item param = param) := by
  have he := resolveQuery_eq item param
  cases hq : getField item "query" <;>
    cases hi : getField item "input" <;>
      cases hp : getField item "prompt" <;>
        simp only [hq, hi, hp] at he <;>
          refine ⟨fun h => ?_, fun h1 h2 => ?_, fun h1 h2 h3 => ?_,
            fun h1 h2 h3 => ?_⟩ <;>
            simp_all [jsIsString]

/-- C6 witness: a query field wins, and with no matching field the
configured parameter is used. -/
theorem C6_query_witness :
    resolveQuery (JsValue.obj [("query", JsValue.str "cats")]) "p" = "cats" ∧
    resolveQuery (JsValue.obj [("other", JsValue.num 1)]) "p" = "p" :=
  ⟨(C6_query (JsValue.obj [("query", JsValue.str "cats")]) "p" "cats").1 rfl,
   (C6_query (JsValue.obj [("other", JsValue.num 1)]) "p" "p").2.2.2 rfl rfl rfl⟩

/-- C5: when an item's transport call fails after its parameters were built,
continuation allowed appends a failure envelope of exactly the shape success
false, error message, query for that item and keeps processing the remaining
items in order; continuation forbidden propagates the failure and the call
returns an error instead of an output list. -/
theorem C5_item_failure (cfg : ItemConfig) (msg : String) (rest : List Item)
    (acc : List Envelope) (qp : List (String × QPVal)) (creds : Credentials)
    (items : List Item)
    (hq : buildQueryParameters (resolveQuery cfg.itemJson cfg.queryParam)
      cfg.categoriesParam cfg.additionalFields cfg.pageno = Except.ok qp)
    (hb : (runBatch false items []).2 = some msg) :
    runBatch true ((cfg, Except.error msg) :: rest) acc =
      runBatch true rest
        (acc ++ [Envelope.failure msg (resolveQuery cfg.itemJson cfg.queryParam)]) ∧
    runBatch false ((cfg, Except.error msg) :: rest) acc = (acc, some msg) ∧
    executeNode (Except.ok (some creds)) items false = Except.error msg := by
  have hstepT : runItemStep cfg (Except.error msg) true =
      Except.ok (Envelope.failure msg (resolveQuery cfg.itemJson cfg.queryParam)) := by
    simp [runItemStep, hq]
  have hstepF : runItemStep cfg (Except.error msg) false = Except.error msg := by
    simp [runItemStep, hq]
  refine ⟨?_, ?_, ?_⟩
  · simp [runBatch, hstepT]
  · simp [runBatch, hstepF]
  · rcases hr : runBatch false items [] with ⟨out, st⟩
    rw [hr] at hb
    simp only at hb
    subst hb
    simp [executeNode, hr]

/-- C5 witness: a single failing item with continuation enabled is recorded
as a failure envelope, and with continuation disabled the call errors. -/
theorem C5_item_failure_witness :
    runBatch true
      [((⟨JsValue.obj [], "q", JsValue.null, {}, 10, 0⟩ : ItemConfig),
        Except.error "boom")] [] =
      runBatch true []
        ([] ++ [Envelope.failure "boom"
          (resolveQuery (JsValue.obj []) "q")]) ∧
    runBatch false
      [((⟨JsValue.obj [], "q", JsValue.null, {}, 10, 0⟩ : ItemConfig),
        Except.error "boom")] [] = ([], some "boom") ∧
    executeNode (Except.ok (some ⟨"u", "k"⟩))
      [((⟨JsValue.obj [], "q", JsValue.null, {}, 10, 0⟩ : ItemConfig),
        Except.error "boom")] false = Except.error "boom" :=
  C5_item_failure ⟨JsValue.obj [], "q", JsValue.null, {}, 10, 0⟩ "boom" [] []
    [("q", QPVal.s "q"), ("categories", QPVal.s "general"),
      ("format", QPVal.s "json")] ⟨"u", "k"⟩
    [((⟨JsValue.obj [], "q", JsValue.null, {}, 10, 0⟩ : ItemConfig),
      Except.error "boom")] rfl rfl

/-- C8: when credential resolution fails, execute returns the output built so
far, which is the empty list, if the continuation policy allows proceeding,
and otherwise propagates the failure and aborts with no output; the same
holds when credentials resolve to nothing. -/
theorem C8_credentials (e : String) (items : List Item) :
    executeNode (Except.error e) items true = Except.ok [] ∧
    executeNode (Except.error e) items false = Except.error e ∧
    executeNode (Except.ok none) items true = Except.ok [] ∧
    executeNode (Except.ok none) items false =
      Except.error "No credentials got returned!" :=
  ⟨rfl, rfl, rfl, rfl⟩

end Searxng
